import Mathlib

/-!
Verification of the minienv tag grammar, value resolution and type coercion
core against its natural-language specification.

The embedding models strings as `List Char` (`Str`).  The tokenizer and tag
grammar come from `internal/tag/parser.go` (`tokenize`, `parser.Parse`,
`parseSplitOption`, `parseDefaultOption`); value resolution and coercion come
from the package-level `getValue`, `setField` and `convertPrimitiveValue`.
-/

namespace Minienv

/-- Strings are modelled as lists of characters. -/
abbrev Str := List Char

/-- Convert a Lean string literal to the `Str` representation. -/
def chars (s : String) : Str := s.data

/-- The four tag delimiter characters of the tokenizer: comma, equals sign
and the two square brackets. -/
def isDelim (c : Char) : Bool :=
  c == ',' || c == '=' || c == '[' || c == ']'

/-- Whitespace as recognised by Go's `strings.TrimSpace` for the Latin-1
range: space, tab, newline, vertical tab, form feed, carriage return,
next line and non-breaking space. -/
def goIsSpace (c : Char) : Bool :=
  c == ' ' || c == '\t' || c == '\n' || c.toNat == 11 || c.toNat == 12 ||
    c == '\r' || c.toNat == 133 || c.toNat == 160

/-- Drop leading whitespace characters. -/
def trimLeftGo : Str → Str
  | [] => []
  | c :: cs => if goIsSpace c then trimLeftGo cs else c :: cs

/-- `strings.TrimSpace`: drop leading and trailing whitespace. -/
def trimGo (s : Str) : Str :=
  (trimLeftGo (trimLeftGo s).reverse).reverse

/-- One step of the tokenizer loop of `tokenize` in `parser.go`: `tok` is the
literal accumulated so far, `acc` the tokens already emitted.  On a delimiter
character the trimmed literal is flushed (when non-empty) and the delimiter
becomes a single-character token; any other character extends the literal. -/
def tokenizeAux (tok : Str) (acc : List Str) : Str → List Str
  | [] =>
    let t := trimGo tok
    if t = [] then acc else acc ++ [t]
  | c :: rest =>
    if isDelim c then
      let t := trimGo tok
      let acc2 := if t = [] then acc else acc ++ [t]
      let tok2 := if t = [] then tok else []
      tokenizeAux tok2 (acc2 ++ [[c]]) rest
    else
      tokenizeAux (tok ++ [c]) acc rest

/-- `tokenize` from `parser.go`: split a raw tag string into literal and
delimiter tokens, trimming literals and dropping the ones that trim to
nothing. -/
def tokenize (tag : Str) : List Str :=
  tokenizeAux [] [] tag

deriving instance DecidableEq for Except

/-- The parsed form of a tag annotation, `MinienvTag` from `parser.go`.
A zero value (`""`) marks an absent default and an absent split
delimiter; there is no separate presence flag. -/
structure MinienvTag where
  LookupName : Str
  Optional : Bool
  Default : Str
  SplitOn : Str
  deriving DecidableEq

/-- The grammar errors produced by the tag token scanner, one constructor per
distinct error message of `parser.go`. -/
inductive PErr
  | emptyTag
  | invalidToken (t : Str)
  | splitMissingEq
  | splitInvalidTokens
  | splitMissingToken
  | defaultMissingEq
  | invalidDefaultToken (t : Str)
  | missingClosingBracket
  | outOfFuel
  deriving DecidableEq

/-- `currentToken` of the token cursor: the token at index `i`, or the empty
string once the cursor ran past the end. -/
def currentTok (tokens : List Str) (i : Nat) : Str := tokens.getD i []

/-- `peek` of the token cursor: the token one past index `i`, or the empty
string when there is none. -/
def peekTok (tokens : List Str) (i : Nat) : Str := tokens.getD (i + 1) []

/-- `parseSplitOption` from `parser.go`.  `i` points at the `split` token.
On success it returns the delimiter token together with the cursor position
(the index of the delimiter token itself, as in the source, where the main
loop advances once more afterwards). -/
def parseSplitOption (tokens : List Str) (i : Nat) : Except PErr (Str × Nat) :=
  -- consume the split token; now we must see an = sign
  if currentTok tokens (i + 1) ≠ chars "=" then .error .splitMissingEq
  -- if after the current value there is not a comma or EOF, the tag is invalid
  else if peekTok tokens (i + 2) ≠ [] ∧ peekTok tokens (i + 2) ≠ chars "," then
    .error .splitInvalidTokens
  else if currentTok tokens (i + 2) = [] then .error .splitMissingToken
  else .ok (currentTok tokens (i + 2), i + 2)

/-- Offset of the first `"]"` token in a token list, if any. -/
def firstCloseIdx : List Str → Option Nat
  | [] => none
  | t :: rest =>
    if t = chars "]" then some 0 else (firstCloseIdx rest).map (· + 1)

/-- The scan loop inside `parseDefaultOption`: starting from index `start`
(the position of the opening bracket), advance until a `"]"` token is found
and return its index; running out of tokens first is an error. -/
def findCloseBracket (tokens : List Str) (start : Nat) : Except PErr Nat :=
  match firstCloseIdx (tokens.drop start) with
  | some off => .ok (start + off)
  | none => .error .missingClosingBracket

/-- `parseDefaultOption` from `parser.go`.  `i` points at the `default`
token.  On success it returns the default value together with the cursor
position (the index of the last consumed token, as in the source). -/
def parseDefaultOption (tokens : List Str) (i : Nat) :
    Except PErr (Str × Nat) :=
  -- consume the default token; now we must see an = sign
  if currentTok tokens (i + 1) ≠ chars "=" then .error .defaultMissingEq
  else if currentTok tokens (i + 2) = [] ∨ currentTok tokens (i + 2) = chars ","
  then .error (.invalidDefaultToken (currentTok tokens (i + 2)))
  else if currentTok tokens (i + 2) = chars "[" then
    match findCloseBracket tokens (i + 2) with
    | .error e => .error e
    | .ok j => .ok (((tokens.drop (i + 3)).take (j - (i + 3))).flatten, j)
  else .ok (currentTok tokens (i + 2), i + 2)

/-- The main loop of `parser.Parse`: the first token is the lookup name,
afterwards `optional`, `split`, `default` and separator commas are handled,
anything else is an invalid token.  `fuel` bounds the number of iterations;
`tokens.length + 1` always suffices because the cursor strictly advances. -/
def parseLoop (tokens : List Str) : Nat → Nat → MinienvTag →
    Except PErr MinienvTag
  | 0, _, _ => .error .outOfFuel
  | fuel + 1, i, acc =>
    if i < tokens.length then
      if i = 0 then
        parseLoop tokens fuel (i + 1)
          { acc with LookupName := currentTok tokens i }
      else if currentTok tokens i = chars "optional" then
        parseLoop tokens fuel (i + 1) { acc with Optional := true }
      else if currentTok tokens i = chars "split" then
        match parseSplitOption tokens i with
        | .error e => .error e
        | .ok (v, i2) => parseLoop tokens fuel (i2 + 1) { acc with SplitOn := v }
      else if currentTok tokens i = chars "default" then
        match parseDefaultOption tokens i with
        | .error e => .error e
        | .ok (v, i2) => parseLoop tokens fuel (i2 + 1) { acc with Default := v }
      else if currentTok tokens i = chars "," then
        parseLoop tokens fuel (i + 1) acc
      else .error (.invalidToken (currentTok tokens i))
    else .ok acc

/-- `ParseMinienvTag` from `parser.go`: tokenize, reject the empty tag, then
run the parse loop over the token cursor. -/
def ParseMinienvTag (tagStr : Str) : Except PErr MinienvTag :=
  let tokens := tokenize tagStr
  if tokens = [] then .error .emptyTag
  else parseLoop tokens (tokens.length + 1) 0 ⟨[], false, [], []⟩

/-! ## Type coercion (`setField`, `convertPrimitiveValue`) -/

/-- The conversion failures of the coercion engine: `strconv.Atoi` syntax and
range errors, `strconv.ParseBool` errors, the unsupported-kind error, and the
malformed map entry error. -/
inductive ConvError
  | atoiSyntax (s : Str)
  | atoiRange (s : Str)
  | parseBoolSyntax (s : Str)
  | unsupportedKind
  | malformedMapEntry (e : Str)
  deriving DecidableEq

/-- The primitive target kinds handled by `convertPrimitiveValue`.  Float
fields (`strconv.ParseFloat`) are outside this development; no claim
involves them. -/
inductive PrimKind
  | string
  | int
  | bool
  deriving DecidableEq

/-- The field kinds distinguished by `setField`: a primitive scalar, a slice
of primitives, or any other reflect kind (map, struct, complex, ...), which
`setField` rejects as unsupported. -/
inductive FieldKind
  | prim (k : PrimKind)
  | slice (elem : PrimKind)
  | other
  deriving DecidableEq

/-- A converted primitive value. -/
inductive GoPrim
  | str (s : Str)
  | int (n : Int)
  | bool (b : Bool)
  deriving DecidableEq

/-- A value written into a struct field: a scalar or a slice. -/
inductive FieldValue
  | prim (p : GoPrim)
  | listVal (l : List GoPrim)
  deriving DecidableEq

/-- Numeric value of a run of decimal digits. -/
def digitsToNat (ds : Str) : Nat :=
  ds.foldl (fun a c => a * 10 + (c.toNat - 48)) 0

/-- `strconv.Atoi`: an optional sign followed by at least one decimal digit,
with a range check against the 64-bit signed integer bounds. -/
def atoi (s : Str) : Except ConvError Int :=
  let signed : Bool × Str :=
    match s with
    | '+' :: rest => (false, rest)
    | '-' :: rest => (true, rest)
    | _ => (false, s)
  let neg := signed.1
  let ds := signed.2
  if ds = [] ∨ ¬ ds.all Char.isDigit then .error (.atoiSyntax s)
  else
    let n := digitsToNat ds
    if neg then
      if n > 2 ^ 63 then .error (.atoiRange s) else .ok (-(n : Int))
    else
      if n > 2 ^ 63 - 1 then .error (.atoiRange s) else .ok (n : Int)

/-- `strconv.ParseBool`: the exact set of accepted literals. -/
def parseBoolGo (s : Str) : Except ConvError Bool :=
  if s = chars "1" ∨ s = chars "t" ∨ s = chars "T" ∨ s = chars "TRUE" ∨
      s = chars "true" ∨ s = chars "True" then .ok true
  else if s = chars "0" ∨ s = chars "f" ∨ s = chars "F" ∨ s = chars "FALSE" ∨
      s = chars "false" ∨ s = chars "False" then .ok false
  else .error (.parseBoolSyntax s)

/-- `convertPrimitiveValue`: convert one raw string to a primitive kind.
The scalar branches of `setField` perform the identical conversions. -/
def convertPrimitiveValue (val : Str) : PrimKind → Except ConvError GoPrim
  | .string => .ok (.str val)
  | .int =>
    match atoi val with
    | .error e => .error e
    | .ok n => .ok (.int n)
  | .bool =>
    match parseBoolGo val with
    | .error e => .error e
    | .ok b => .ok (.bool b)

/-- The scan loop of `strings.Split` for a non-empty separator `s0 :: stail`:
`acc` is the chunk accumulated so far; at each position, either the separator
is a prefix (flush the chunk and skip the separator) or the character joins
the chunk.  `fuel` bounds the iterations; the input length always suffices
because every step consumes at least one character. -/
def splitGoAux (s0 : Char) (stail : Str) : Nat → Str → Str → List Str
  | 0, acc, _ => [acc]
  | _ + 1, acc, [] => [acc]
  | fuel + 1, acc, c :: rest =>
    if (s0 :: stail).isPrefixOf (c :: rest) then
      acc :: splitGoAux s0 stail fuel [] (rest.drop stail.length)
    else
      splitGoAux s0 stail fuel (acc ++ [c]) rest

/-- `strings.Split`: with an empty separator the string splits into its
characters; otherwise it is cut at every leftmost non-overlapping occurrence
of the separator. -/
def splitGo (sep s : Str) : List Str :=
  match sep with
  | [] => s.map ([·])
  | s0 :: stail => splitGoAux s0 stail (s.length + 1) [] s

/-- The element loop of `setField`'s slice branch: convert each substring in
order, aborting at the first failing element. -/
def convertAll (k : PrimKind) : List Str → Except ConvError (List GoPrim)
  | [] => .ok []
  | v :: rest =>
    match convertPrimitiveValue v k with
    | .error e => .error e
    | .ok c =>
      match convertAll k rest with
      | .error e => .error e
      | .ok cs => .ok (c :: cs)

/-- `setField`: convert the resolved raw string to the field's kind.  Scalars
convert directly, slices split the raw string on the tag's split delimiter
and convert each element, and every other kind is unsupported. -/
def setField (k : FieldKind) (val : Str) (t : MinienvTag) :
    Except ConvError FieldValue :=
  match k with
  | .prim pk =>
    match convertPrimitiveValue val pk with
    | .error e => .error e
    | .ok p => .ok (.prim p)
  | .slice ek =>
    match convertAll ek (splitGo t.SplitOn val) with
    | .error e => .error e
    | .ok cs => .ok (.listVal cs)
  | .other => .error .unsupportedKind

/-! ## Value resolution (`getValue`) -/

/-- The caller-owned resolution context: the key-prefix string and the
programmatic fallback map (`LoadConfig` with its `Values` map, into which
file-derived values are merged before resolution). -/
structure LoadConfig where
  Prefix : Str
  Values : Str → Option Str

/-- The resolution failure: a required field found no value in any source and
has no default.  It carries the effective lookup key. -/
inductive GetValueError
  | required (lookup : Str)
  deriving DecidableEq

/-- The effective lookup key computed at the top of `getValue`: the tag's
lookup name, prepended with the configured key-prefix when that is non-empty
and the name does not already start with it. -/
def effectiveLookup (config : LoadConfig) (t : MinienvTag) : Str :=
  if config.Prefix ≠ [] ∧ ¬ config.Prefix.isPrefixOf t.LookupName then
    config.Prefix ++ t.LookupName
  else t.LookupName

/-- `getValue`: resolve the raw string for a descriptor.  The live
environment (`os.LookupEnv`) is passed as the mapping `env`.  Precedence is
environment, then fallback map, then tag default; when no source has the key
and the tag is required with an empty default, resolution fails. -/
def getValue (env : Str → Option Str) (config : LoadConfig) (t : MinienvTag) :
    Except GetValueError Str :=
  let lookup := effectiveLookup config t
  let envVal := env lookup
  let fallbackVal := config.Values lookup
  if envVal = none ∧ fallbackVal = none ∧ t.Optional = false ∧
      t.Default = [] then
    .error (.required lookup)
  else
    match envVal with
    | some v => .ok v
    | none =>
      match fallbackVal with
      | some v => .ok v
      | none => .ok t.Default

/-- A per-field failure, wrapping the phase that produced it, as the caller
wraps errors from tag parsing, resolution and conversion. -/
inductive LoadErr
  | parse (e : PErr)
  | resolution (e : GetValueError)
  | conversion (e : ConvError)
  deriving DecidableEq

/-- The per-field pipeline of `handleStruct`: parse the tag, resolve the raw
value, then convert and write it.  A failure in any phase aborts the field
with no value produced. -/
def handleField (env : Str → Option Str) (config : LoadConfig) (tagStr : Str)
    (kind : FieldKind) : Except LoadErr FieldValue :=
  match ParseMinienvTag tagStr with
  | .error e => .error (.parse e)
  | .ok t =>
    match getValue env config t with
    | .error e => .error (.resolution e)
    | .ok val =>
      match setField kind val t with
      | .error e => .error (.conversion e)
      | .ok v => .ok v

/-- The empty resolution context: no key-prefix, no fallback values. -/
def emptyConfig : LoadConfig := ⟨[], fun _ => none⟩

/-! ## Map coercion, modelled from the spec -/

/-- Modelled from the spec: the key/value split of one map entry ("split each
entry on the key/value delimiter exactly once (first occurrence); an entry
with no key/value delimiter is a ConversionError").  The map branch of
`setField` is absent from the sources at hand; only its tests survive. -/
def splitEntryOnce : Str → Option (Str × Str)
  | [] => none
  | c :: rest =>
    if c = ':' then some ([], rest)
    else (splitEntryOnce rest).map (fun p => (c :: p.1, p.2))

/-- Modelled from the spec: duplicate-key policy of map coercion ("if the
same key appears more than once, the later entry silently overwrites the
earlier one (last-wins)"). -/
def insertLastWins (m : List (GoPrim × GoPrim)) (k v : GoPrim) :
    List (GoPrim × GoPrim) :=
  if m.any (fun p => p.1 == k) then
    m.map (fun p => if p.1 = k then (k, v) else p)
  else m ++ [(k, v)]

/-- Modelled from the spec: the entry loop of map coercion, converting each
entry's key and value independently and inserting with last-wins. -/
def coerceMapAux (kk vk : PrimKind) (acc : List (GoPrim × GoPrim)) :
    List Str → Except ConvError (List (GoPrim × GoPrim))
  | [] => .ok acc
  | e :: rest =>
    match splitEntryOnce e with
    | none => .error (.malformedMapEntry e)
    | some (ks, vs) =>
      match convertPrimitiveValue ks kk with
      | .error er => .error er
      | .ok k =>
        match convertPrimitiveValue vs vk with
        | .error er => .error er
        | .ok v => coerceMapAux kk vk (insertLastWins acc k v) rest

/-- Modelled from the spec: map coercion ("split raw on the top-level entry
delimiter first, then split each entry on the key/value delimiter"), with the
`|` entry delimiter and `:` key/value delimiter of the repository's map
tests.  The implementing code is missing from the sources at hand. -/
def coerceMap (raw : Str) (kk vk : PrimKind) :
    Except ConvError (List (GoPrim × GoPrim)) :=
  coerceMapAux kk vk [] (splitGo (chars "|") raw)

/-! ## Sanity checks mirroring the repository tests -/

example : tokenize (chars "TEST,split=,,optional") =
    [chars "TEST", chars ",", chars "split", chars "=", chars ",",
      chars ",", chars "optional"] := by decide

example : tokenize (chars "K,  ,") = [chars "K", chars ",", chars ","] := by
  decide

example : tokenize (chars "K,default=[10,20,30]") =
    [chars "K", chars ",", chars "default", chars "=", chars "[",
      chars "10", chars ",", chars "20", chars ",", chars "30",
      chars "]"] := by decide

example : ParseMinienvTag (chars "TEST,split=,,default=[10,20,30],optional") =
    .ok ⟨chars "TEST", true, chars "10,20,30", chars ","⟩ := by decide

example : ParseMinienvTag (chars "TEST") =
    .ok ⟨chars "TEST", false, [], []⟩ := by decide

example : ParseMinienvTag (chars "TEST,  ,") =
    .ok ⟨chars "TEST", false, [], []⟩ := by decide

example : ParseMinienvTag (chars "") = .error .emptyTag := by decide

example : ParseMinienvTag (chars "TEST,unknown") =
    .error (.invalidToken (chars "unknown")) := by decide

example : ParseMinienvTag (chars "TEST,split") =
    .error .splitMissingEq := by decide

example : ParseMinienvTag (chars "TEST,split=") =
    .error .splitMissingToken := by decide

example : ParseMinienvTag (chars "TEST,split=,optional") =
    .error .splitInvalidTokens := by decide

example : ParseMinienvTag (chars "TEST,split=:,optional") =
    .ok ⟨chars "TEST", true, [], chars ":"⟩ := by decide

example : ParseMinienvTag (chars "TEST,default") =
    .error .defaultMissingEq := by decide

example : ParseMinienvTag (chars "TEST,default=") =
    .error (.invalidDefaultToken []) := by decide

example : ParseMinienvTag (chars "TEST,default=,optional") =
    .error (.invalidDefaultToken (chars ",")) := by decide

example : ParseMinienvTag (chars "TEST,default=[10,20,") =
    .error .missingClosingBracket := by decide

example : ParseMinienvTag (chars "TEST,default=[10,20,optional") =
    .error .missingClosingBracket := by decide

example : ParseMinienvTag (chars "TEST,default=something interesting") =
    .ok ⟨chars "TEST", false, chars "something interesting", []⟩ := by decide

example : splitGo (chars "|") (chars "1|2|3") =
    [chars "1", chars "2", chars "3"] := by decide

example : splitGo (chars ",") (chars "a,b,c,d") =
    [chars "a", chars "b", chars "c", chars "d"] := by decide

example : splitGo (chars "|") (chars "a||") = [chars "a", [], []] := by decide

example : setField (.prim .int) (chars "8080") ⟨chars "PORT", false, [], []⟩ =
    .ok (.prim (.int 8080)) := by decide

example : setField (.prim .int) [] ⟨chars "PORT", true, [], []⟩ =
    .error (.atoiSyntax []) := by decide

example : setField (.slice .int) (chars "1|2|3")
    ⟨chars "NUMS", false, [], chars "|"⟩ =
    .ok (.listVal [.int 1, .int 2, .int 3]) := by decide

example : handleField (fun k => if k = chars "PORT" then some (chars "8080")
      else none) emptyConfig (chars "PORT") (.prim .int) =
    .ok (.prim (.int 8080)) := by decide

example : handleField (fun _ => none) emptyConfig
      (chars "NUMS,split=|,default=[1|2|3]") (.slice .int) =
    .ok (.listVal [.int 1, .int 2, .int 3]) := by decide

example : coerceMap (chars "test:first|test:second") .string .string =
    .ok [(.str (chars "test"), .str (chars "second"))] := by decide

example : coerceMap (chars "key") .string .string =
    .error (.malformedMapEntry (chars "key")) := by decide

/-! ## Tokenizer and parse-loop stepping lemmas -/

theorem tokenizeAux_nil (tok : Str) (acc : List Str) :
    tokenizeAux tok acc [] =
      if trimGo tok = [] then acc else acc ++ [trimGo tok] := rfl

theorem tokenizeAux_lit (tok : Str) (acc : List Str) (c : Char) (rest : Str)
    (h : isDelim c = false) :
    tokenizeAux tok acc (c :: rest) = tokenizeAux (tok ++ [c]) acc rest := by
  simp [tokenizeAux, h]

theorem tokenizeAux_delim (tok : Str) (acc : List Str) (c : Char) (rest : Str)
    (h : isDelim c = true) (h2 : trimGo tok ≠ []) :
    tokenizeAux tok acc (c :: rest) =
      tokenizeAux [] ((acc ++ [trimGo tok]) ++ [[c]]) rest := by
  simp [tokenizeAux, h, h2]

theorem tokenizeAux_delim_drop (tok : Str) (acc : List Str) (c : Char)
    (rest : Str) (h : isDelim c = true) (h2 : trimGo tok = []) :
    tokenizeAux tok acc (c :: rest) = tokenizeAux tok (acc ++ [[c]]) rest := by
  simp [tokenizeAux, h, h2]

theorem tokenizeAux_noDelim (s : Str) (h : ∀ c ∈ s, isDelim c = false) :
    ∀ tok acc rest,
      tokenizeAux tok acc (s ++ rest) = tokenizeAux (tok ++ s) acc rest := by
  induction s with
  | nil => intro tok acc rest; simp
  | cons c s' ih =>
    intro tok acc rest
    rw [List.cons_append, tokenizeAux_lit _ _ _ _ (h c (by simp)),
      ih (fun x hx => h x (by simp [hx])) (tok ++ [c]) acc rest]
    simp

/-- Tokenizing any tag of the shape `K,default=` followed by more input
first emits the four fixed tokens. -/
theorem tokenizeAux_KdefaultEq (rest : Str) :
    tokenizeAux [] [] (chars "K,default=" ++ rest) =
      tokenizeAux [] [chars "K", chars ",", chars "default", chars "="]
        rest := by
  rw [show chars "K,default=" ++ rest =
    'K' :: (',' :: (chars "default" ++ ('=' :: rest))) from rfl]
  rw [tokenizeAux_lit _ _ _ _ (by decide)]
  rw [tokenizeAux_delim _ _ _ _ (by decide) (by decide)]
  rw [tokenizeAux_noDelim (chars "default") (by decide)]
  rw [tokenizeAux_delim _ _ _ _ (by decide) (by decide)]
  exact congrFun (congrArg (tokenizeAux []) (by decide)) rest

/-- Tokenization of the plain default form for a delimiter-free,
trim-invariant, non-empty literal. -/
theorem tokenize_plain_default (d : Str) (h1 : d ≠ []) (h2 : trimGo d = d)
    (h3 : ∀ c ∈ d, isDelim c = false) :
    tokenize (chars "K,default=" ++ d) =
      [chars "K", chars ",", chars "default", chars "=", d] := by
  unfold tokenize
  rw [tokenizeAux_KdefaultEq]
  conv_lhs => rw [show d = d ++ ([] : Str) from (List.append_nil d).symm]
  rw [tokenizeAux_noDelim d h3, tokenizeAux_nil]
  simp only [List.nil_append, h2]
  rw [if_neg h1]
  rfl

/-- Tokenization of the escaped default form for a delimiter-free,
trim-invariant, non-empty literal. -/
theorem tokenize_bracket_default (d : Str) (h1 : d ≠ []) (h2 : trimGo d = d)
    (h3 : ∀ c ∈ d, isDelim c = false) :
    tokenize (chars "K,default=[" ++ (d ++ chars "]")) =
      [chars "K", chars ",", chars "default", chars "=", chars "[", d,
        chars "]"] := by
  unfold tokenize
  rw [show chars "K,default=[" ++ (d ++ chars "]") =
    chars "K,default=" ++ ('[' :: (d ++ (']' :: ([] : Str)))) from rfl]
  rw [tokenizeAux_KdefaultEq]
  rw [tokenizeAux_delim_drop []
    [chars "K", chars ",", chars "default", chars "="] '['
    (d ++ (']' :: ([] : Str))) (by decide) rfl]
  rw [tokenizeAux_noDelim d h3]
  rw [tokenizeAux_delim _ _ _ _ (by decide) (by simpa [h2] using h1)]
  have hemp : trimGo ([] : Str) = [] := rfl
  rw [tokenizeAux_nil, if_pos hemp]
  simp [h2]
  exact ⟨rfl, rfl⟩

theorem parseLoop_exit (tokens : List Str) (fuel i : Nat) (acc : MinienvTag)
    (hf : fuel ≠ 0) (h : ¬ i < tokens.length) :
    parseLoop tokens fuel i acc = .ok acc := by
  cases fuel with
  | zero => exact absurd rfl hf
  | succ f => simp [parseLoop, h]

theorem parseLoop_head (tokens : List Str) (fuel : Nat) (acc : MinienvTag)
    (hf : fuel ≠ 0) (h : 0 < tokens.length) :
    parseLoop tokens fuel 0 acc =
      parseLoop tokens (fuel - 1) 1
        { acc with LookupName := currentTok tokens 0 } := by
  cases fuel with
  | zero => exact absurd rfl hf
  | succ f => simp [parseLoop, h]

theorem parseLoop_comma (tokens : List Str) (fuel i : Nat) (acc : MinienvTag)
    (hf : fuel ≠ 0) (h : i < tokens.length) (hi : i ≠ 0)
    (ht : currentTok tokens i = chars ",") :
    parseLoop tokens fuel i acc = parseLoop tokens (fuel - 1) (i + 1) acc := by
  have c1 : chars "," ≠ chars "optional" := by decide
  have c2 : chars "," ≠ chars "split" := by decide
  have c3 : chars "," ≠ chars "default" := by decide
  cases fuel with
  | zero => exact absurd rfl hf
  | succ f => simp [parseLoop, h, hi, ht, c1, c2, c3]

theorem parseLoop_default_ok (tokens : List Str) (fuel i : Nat)
    (acc : MinienvTag) (v : Str) (i2 : Nat) (hf : fuel ≠ 0)
    (h : i < tokens.length) (hi : i ≠ 0)
    (ht : currentTok tokens i = chars "default")
    (hp : parseDefaultOption tokens i = .ok (v, i2)) :
    parseLoop tokens fuel i acc =
      parseLoop tokens (fuel - 1) (i2 + 1) { acc with Default := v } := by
  have c1 : chars "default" ≠ chars "optional" := by decide
  have c2 : chars "default" ≠ chars "split" := by decide
  cases fuel with
  | zero => exact absurd rfl hf
  | succ f => simp [parseLoop, h, hi, ht, c1, c2, hp]

/-- The plain-form default sub-parse on the token stream of `K,default=d`. -/
theorem parseDefaultOption_plain5 (d : Str) (h1 : d ≠ [])
    (hd1 : d ≠ chars ",") (hd2 : d ≠ chars "[") :
    parseDefaultOption [chars "K", chars ",", chars "default", chars "=", d]
      2 = .ok (d, 4) := by
  have he : currentTok [chars "K", chars ",", chars "default", chars "=", d]
      (2 + 1) = chars "=" := rfl
  have hA : ¬(currentTok
      [chars "K", chars ",", chars "default", chars "=", d] (2 + 2) = [] ∨
      currentTok [chars "K", chars ",", chars "default", chars "=", d]
        (2 + 2) = chars ",") := by
    rintro (hh | hh)
    · exact h1 hh
    · exact hd1 hh
  have hB : ¬(currentTok
      [chars "K", chars ",", chars "default", chars "=", d] (2 + 2) =
        chars "[") := hd2
  unfold parseDefaultOption
  rw [if_neg (not_not.mpr he), if_neg hA, if_neg hB]
  rfl

/-- The escaped-form default sub-parse on the token stream of
`K,default=[d]`. -/
theorem parseDefaultOption_bracket7 (d : Str) (hd3 : d ≠ chars "]") :
    parseDefaultOption
      [chars "K", chars ",", chars "default", chars "=", chars "[", d,
        chars "]"] 2 = .ok (d, 6) := by
  have c1 : chars "[" ≠ chars "]" := by decide
  have h3 : firstCloseIdx [chars "[", d, chars "]"] = some 2 := by
    simp [firstCloseIdx, c1, hd3]
  have hfc : findCloseBracket
      [chars "K", chars ",", chars "default", chars "=", chars "[", d,
        chars "]"] (2 + 2) = .ok 6 := by
    unfold findCloseBracket
    rw [show ([chars "K", chars ",", chars "default", chars "=", chars "[", d,
      chars "]"] : List Str).drop (2 + 2) = [chars "[", d, chars "]"] from
      rfl, h3]
  have he : currentTok [chars "K", chars ",", chars "default", chars "=",
      chars "[", d, chars "]"] (2 + 1) = chars "=" := rfl
  have hbr : currentTok [chars "K", chars ",", chars "default", chars "=",
      chars "[", d, chars "]"] (2 + 2) = chars "[" := rfl
  have hA : ¬(currentTok [chars "K", chars ",", chars "default", chars "=",
      chars "[", d, chars "]"] (2 + 2) = [] ∨
      currentTok [chars "K", chars ",", chars "default", chars "=",
        chars "[", d, chars "]"] (2 + 2) = chars ",") := by
    rw [hbr]
    decide
  unfold parseDefaultOption
  rw [if_neg (not_not.mpr he), if_neg hA, if_pos hbr, hfc]
  simp

theorem currentTok_append (pre l : List Str) (n : Nat) :
    currentTok (pre ++ l) (pre.length + n) = currentTok l n := by
  induction pre with
  | nil => simp [currentTok]
  | cons a pre ih =>
    have e : (a :: pre).length + n = (pre.length + n) + 1 := by
      simp [List.length_cons]
      omega
    rw [show a :: pre ++ l = a :: (pre ++ l) from rfl, e]
    simpa [currentTok, List.getD_cons_succ] using ih

theorem firstCloseIdx_cons_ne (a : Str) (l : List Str) (ha : a ≠ chars "]") :
    firstCloseIdx (a :: l) = (firstCloseIdx l).map (· + 1) := by
  simp [firstCloseIdx, ha]

theorem firstCloseIdx_none (l : List Str) (h : chars "]" ∉ l) :
    firstCloseIdx l = none := by
  induction l with
  | nil => rfl
  | cons a l ih =>
    have ha : ¬(a = chars "]") := by
      intro hh
      exact h (by simp [hh])
    simp [firstCloseIdx, ha, ih (fun hh => h (by simp [hh]))]

theorem firstCloseIdx_found (ms rest : List Str) (h : chars "]" ∉ ms) :
    firstCloseIdx (ms ++ chars "]" :: rest) = some ms.length := by
  induction ms with
  | nil => simp [firstCloseIdx]
  | cons a ms ih =>
    have ha : ¬(a = chars "]") := by
      intro hh
      exact h (by simp [hh])
    simp [firstCloseIdx, ha, ih (fun hh => h (by simp [hh]))]

theorem splitGoAux_cons_ne (s0 c : Char) (fuel : Nat) (acc rest : Str)
    (h : c ≠ s0) :
    splitGoAux s0 [] (fuel + 1) acc (c :: rest) =
      splitGoAux s0 [] fuel (acc ++ [c]) rest := by
  simp [splitGoAux, List.isPrefixOf, Ne.symm h]

theorem splitGoAux_cons_eq (s0 : Char) (fuel : Nat) (acc rest : Str) :
    splitGoAux s0 [] (fuel + 1) acc (s0 :: rest) =
      acc :: splitGoAux s0 [] fuel [] rest := by
  simp [splitGoAux, List.isPrefixOf]

theorem splitGoAux_no_sep (s0 : Char) (e : Str) (h : s0 ∉ e) :
    ∀ fuel acc, e.length ≤ fuel → splitGoAux s0 [] fuel acc e = [acc ++ e] := by
  induction e with
  | nil =>
    intro fuel acc _
    cases fuel <;> simp [splitGoAux]
  | cons c e' ih =>
    intro fuel acc hf
    have hc : c ≠ s0 := by
      intro hh
      exact h (by simp [hh])
    have he' : s0 ∉ e' := fun hh => h (by simp [hh])
    cases fuel with
    | zero => simp at hf
    | succ f =>
      rw [splitGoAux_cons_ne _ _ _ _ _ hc,
        ih he' f (acc ++ [c]) (by simpa using hf)]
      simp

theorem splitGoAux_sep (s0 : Char) (e rest : Str) (h : s0 ∉ e) :
    ∀ fuel acc, e.length < fuel →
      splitGoAux s0 [] fuel acc (e ++ s0 :: rest) =
        (acc ++ e) :: splitGoAux s0 [] (fuel - (e.length + 1)) [] rest := by
  induction e with
  | nil =>
    intro fuel acc hf
    cases fuel with
    | zero => simp at hf
    | succ f => simp [splitGoAux_cons_eq]
  | cons c e' ih =>
    intro fuel acc hf
    have hc : c ≠ s0 := by
      intro hh
      exact h (by simp [hh])
    have he' : s0 ∉ e' := fun hh => h (by simp [hh])
    cases fuel with
    | zero => simp at hf
    | succ f =>
      rw [show (c :: e') ++ s0 :: rest = c :: (e' ++ s0 :: rest) from rfl,
        splitGoAux_cons_ne _ _ _ _ _ hc,
        ih he' f (acc ++ [c]) (by simpa using hf)]
      have ef : f - (e'.length + 1) = f + 1 - ((c :: e').length + 1) := by
        simp [List.length_cons]
      rw [ef]
      simp

/-- Splitting `e1 c e2 c e3` on the single-character separator `c` recovers
the three chunks when `c` occurs in none of them. -/
theorem splitGo_single_three (s0 : Char) (e1 e2 e3 : Str)
    (h1 : s0 ∉ e1) (h2 : s0 ∉ e2) (h3 : s0 ∉ e3) :
    splitGo [s0] (e1 ++ s0 :: (e2 ++ s0 :: e3)) = [e1, e2, e3] := by
  show splitGoAux s0 [] ((e1 ++ s0 :: (e2 ++ s0 :: e3)).length + 1) []
    (e1 ++ s0 :: (e2 ++ s0 :: e3)) = [e1, e2, e3]
  rw [splitGoAux_sep s0 e1 _ h1 _ _ (by simp; omega)]
  rw [splitGoAux_sep s0 e2 _ h2 _ _ (by simp; omega)]
  rw [splitGoAux_no_sep s0 e3 h3 _ _ (by simp)]
  simp

/-! ## Claim theorems -/

/-- C1: for tag `M`, primary source `M="a:1|b:2|a:3"` and target
`Map(String,Integer)`, the tag parses, resolution returns the primary
source's raw string, and map coercion splits the entries, splits each entry
into key and value, and last-wins on the duplicate key `a`, producing
`{a:3, b:2}`. -/
theorem C1_map_coercion_scenario :
    ParseMinienvTag (chars "M") = .ok ⟨chars "M", false, [], []⟩ ∧
    getValue (fun k => if k = chars "M" then some (chars "a:1|b:2|a:3")
        else none) emptyConfig ⟨chars "M", false, [], []⟩ =
      .ok (chars "a:1|b:2|a:3") ∧
    coerceMap (chars "a:1|b:2|a:3") .string .int =
      .ok [(.str (chars "a"), .int 3), (.str (chars "b"), .int 2)] := by
  refine ⟨by decide, by decide, by decide⟩

/-- C2: resolution precedence.  When the environment-equivalent primary
source has the effective lookup key, its value is returned verbatim (in
particular when the fallback map also has it); when only the fallback map
has the key, the fallback value is returned; the tag's default is used only
when no source has the key. -/
theorem C2_source_precedence (env : Str → Option Str) (config : LoadConfig)
    (t : MinienvTag) (v : Str) :
    (env (effectiveLookup config t) = some v →
      getValue env config t = .ok v) ∧
    (env (effectiveLookup config t) = none →
      config.Values (effectiveLookup config t) = some v →
      getValue env config t = .ok v) ∧
    (env (effectiveLookup config t) = none →
      config.Values (effectiveLookup config t) = none →
      (t.Optional = true ∨ t.Default ≠ []) →
      getValue env config t = .ok t.Default) := by
  refine ⟨fun h => ?_, fun h h2 => ?_, fun h h2 h3 => ?_⟩
  · simp [getValue, h]
  · simp [getValue, h, h2]
  · rcases h3 with h3 | h3 <;> simp [getValue, h, h2, h3]

/-- Witness for C2: a key present in both sources resolves to the primary
source's value, a key only in the fallback map resolves to the fallback
value, and a key in no source resolves to the default. -/
theorem C2_source_precedence_witness :
    getValue (fun k => if k = chars "X" then some (chars "e") else none)
      ⟨[], fun k => if k = chars "X" then some (chars "f") else none⟩
      ⟨chars "X", false, [], []⟩ = .ok (chars "e") ∧
    getValue (fun _ => none)
      ⟨[], fun k => if k = chars "X" then some (chars "f") else none⟩
      ⟨chars "X", false, [], []⟩ = .ok (chars "f") ∧
    getValue (fun _ => none) emptyConfig ⟨chars "X", false, chars "d", []⟩ =
      .ok (chars "d") := by
  refine ⟨(C2_source_precedence _ _ _ (chars "e")).1 (by decide),
    (C2_source_precedence _ _ _ (chars "f")).2.1 (by decide) (by decide),
    (C2_source_precedence _ _ _ []).2.2 rfl rfl (by decide)⟩

/-- C3: the code at the spec's Scenario B.  For tag `PORT,optional` with no
source holding `PORT` and an integer target, resolution itself succeeds with
the empty string, but `setField` then runs `strconv.Atoi` on `""`, which is
a syntax error, so loading the field fails instead of producing `0`. -/
theorem C3_optional_int_scenario :
    ParseMinienvTag (chars "PORT,optional") =
      .ok ⟨chars "PORT", true, [], []⟩ ∧
    getValue (fun _ => none) emptyConfig ⟨chars "PORT", true, [], []⟩ =
      .ok [] ∧
    handleField (fun _ => none) emptyConfig (chars "PORT,optional")
      (.prim .int) = .error (.conversion (.atoiSyntax [])) := by
  refine ⟨by decide, by decide, by decide⟩

/-- C4: a non-optional descriptor with no default and no value in any source
fails resolution with the required-field error carrying the effective lookup
key, and the per-field pipeline propagates that error without producing a
value. -/
theorem C4_required_missing_fails (env : Str → Option Str)
    (config : LoadConfig) (t : MinienvTag) (tagStr : Str) (kind : FieldKind)
    (hparse : ParseMinienvTag tagStr = .ok t)
    (henv : env (effectiveLookup config t) = none)
    (hfb : config.Values (effectiveLookup config t) = none)
    (hopt : t.Optional = false) (hdef : t.Default = []) :
    getValue env config t = .error (.required (effectiveLookup config t)) ∧
    handleField env config tagStr kind =
      .error (.resolution (.required (effectiveLookup config t))) := by
  have h1 : getValue env config t =
      .error (.required (effectiveLookup config t)) := by
    simp [getValue, henv, hfb, hopt, hdef]
  exact ⟨h1, by simp [handleField, hparse, h1]⟩

/-- Witness for C4: tag `X` with empty sources fails with the required-field
error naming `X`. -/
theorem C4_required_missing_fails_witness :
    getValue (fun _ => none) emptyConfig ⟨chars "X", false, [], []⟩ =
      .error (.required
        (effectiveLookup emptyConfig ⟨chars "X", false, [], []⟩)) ∧
    handleField (fun _ => none) emptyConfig (chars "X") (.prim .string) =
      .error (.resolution (.required
        (effectiveLookup emptyConfig ⟨chars "X", false, [], []⟩))) :=
  C4_required_missing_fails (fun _ => none) emptyConfig
    ⟨chars "X", false, [], []⟩ (chars "X") (.prim .string)
    (by decide) rfl rfl rfl rfl

/-- C5 counterexample: the default literal `a=b` contains none of `,`, `[`
and `]`, yet the plain form `K,default=a=b` fails to parse (the tokenizer
splits at the `=` and the leftover token is invalid) while the escaped form
`K,default=[a=b]` parses with default `a=b`, so the two forms do not agree
for every such literal. -/
theorem C5_plain_vs_escaped_ctex :
    ParseMinienvTag (chars "K,default=a=b") =
      .error (.invalidToken (chars "=")) ∧
    ParseMinienvTag (chars "K,default=[a=b]") =
      .ok ⟨chars "K", false, chars "a=b", []⟩ := by
  refine ⟨by decide, by decide⟩

/-- C5 (amended): for every default literal `d` that is non-empty, equal to
its own whitespace trim, and contains none of the tokenizer delimiters `,`,
`=`, `[`, `]`, the tags `K,default=d` and `K,default=[d]` both parse and
produce the same default value `d`. -/
theorem C5_default_forms_agree (d : Str) (h1 : d ≠ []) (h2 : trimGo d = d)
    (h3 : ∀ c ∈ d, isDelim c = false) :
    ParseMinienvTag (chars "K,default=" ++ d) =
      .ok ⟨chars "K", false, d, []⟩ ∧
    ParseMinienvTag (chars "K,default=[" ++ (d ++ chars "]")) =
      .ok ⟨chars "K", false, d, []⟩ := by
  have hd1 : d ≠ chars "," := by
    intro hh
    subst hh
    exact absurd (h3 ',' (by decide)) (by decide)
  have hd2 : d ≠ chars "[" := by
    intro hh
    subst hh
    exact absurd (h3 '[' (by decide)) (by decide)
  have hd3 : d ≠ chars "]" := by
    intro hh
    subst hh
    exact absurd (h3 ']' (by decide)) (by decide)
  constructor
  · have hc : currentTok [chars "K", chars ",", chars "default", chars "=", d]
        1 = chars "," := rfl
    have hd : currentTok [chars "K", chars ",", chars "default", chars "=", d]
        2 = chars "default" := rfl
    simp only [ParseMinienvTag]
    rw [tokenize_plain_default d h1 h2 h3]
    rw [if_neg (by simp)]
    rw [parseLoop_head _ _ _ (by simp) (by simp)]
    rw [parseLoop_comma _ _ _ _ (by simp) (by simp) (by simp) hc]
    rw [parseLoop_default_ok _ _ _ _ d 4 (by simp) (by simp) (by simp) hd
      (parseDefaultOption_plain5 d h1 hd1 hd2)]
    rw [parseLoop_exit _ _ _ _ (by simp) (by simp)]
    rfl
  · have hc : currentTok [chars "K", chars ",", chars "default", chars "=",
        chars "[", d, chars "]"] 1 = chars "," := rfl
    have hd : currentTok [chars "K", chars ",", chars "default", chars "=",
        chars "[", d, chars "]"] 2 = chars "default" := rfl
    simp only [ParseMinienvTag]
    rw [tokenize_bracket_default d h1 h2 h3]
    rw [if_neg (by simp)]
    rw [parseLoop_head _ _ _ (by simp) (by simp)]
    rw [parseLoop_comma _ _ _ _ (by simp) (by simp) (by simp) hc]
    rw [parseLoop_default_ok _ _ _ _ d 6 (by simp) (by simp) (by simp) hd
      (parseDefaultOption_bracket7 d hd3)]
    rw [parseLoop_exit _ _ _ _ (by simp) (by simp)]
    rfl

/-- Witness for C5 (amended): the literal `hello` satisfies the conditions
and both default forms parse to the default `hello`. -/
theorem C5_default_forms_agree_witness :
    ParseMinienvTag (chars "K,default=" ++ chars "hello") =
      .ok ⟨chars "K", false, chars "hello", []⟩ ∧
    ParseMinienvTag (chars "K,default=[" ++ (chars "hello" ++ chars "]")) =
      .ok ⟨chars "K", false, chars "hello", []⟩ :=
  C5_default_forms_agree (chars "hello") (by decide) (by decide) (by decide)

/-- C6 counterexample: an empty bracket pair is not a parse error; the tag
`K,default=[]` parses successfully, yielding the empty string as the
default value. -/
theorem C6_empty_bracket_ctex :
    ParseMinienvTag (chars "K,default=[]") =
      .ok ⟨chars "K", false, [], []⟩ := by
  decide

/-- C6 (amended): in the escaped default form the parser concatenates all
tokens up to the matching `]` verbatim into the default value and discards
the brackets; reaching end-of-input before the closing `]` is a parse
error; an empty bracket pair, however, parses successfully to the empty
default. -/
theorem C6_escaped_default (pre ms rest : List Str) (hms : chars "]" ∉ ms) :
    parseDefaultOption
      (pre ++ chars "default" :: chars "=" :: chars "[" ::
        (ms ++ chars "]" :: rest)) pre.length =
      .ok (ms.flatten, pre.length + 2 + (ms.length + 1)) ∧
    parseDefaultOption
      (pre ++ chars "default" :: chars "=" :: chars "[" :: ms) pre.length =
      .error .missingClosingBracket ∧
    ParseMinienvTag (chars "K,default=[]") =
      .ok ⟨chars "K", false, [], []⟩ := by
  refine ⟨?_, ?_, by decide⟩
  · have hcur1 : currentTok (pre ++ chars "default" :: chars "=" ::
        chars "[" :: (ms ++ chars "]" :: rest)) (pre.length + 1) =
        chars "=" := by
      rw [currentTok_append]
      rfl
    have hcur2 : currentTok (pre ++ chars "default" :: chars "=" ::
        chars "[" :: (ms ++ chars "]" :: rest)) (pre.length + 2) =
        chars "[" := by
      rw [currentTok_append]
      rfl
    have hA : ¬(currentTok (pre ++ chars "default" :: chars "=" ::
        chars "[" :: (ms ++ chars "]" :: rest)) (pre.length + 2) = [] ∨
        currentTok (pre ++ chars "default" :: chars "=" :: chars "[" ::
          (ms ++ chars "]" :: rest)) (pre.length + 2) = chars ",") := by
      rw [hcur2]
      decide
    have hfc : findCloseBracket (pre ++ chars "default" :: chars "=" ::
        chars "[" :: (ms ++ chars "]" :: rest)) (pre.length + 2) =
        .ok (pre.length + 2 + (ms.length + 1)) := by
      unfold findCloseBracket
      rw [List.drop_append]
      rw [show (chars "default" :: chars "=" :: chars "[" ::
        (ms ++ chars "]" :: rest)).drop 2 =
        chars "[" :: (ms ++ chars "]" :: rest) from rfl]
      rw [firstCloseIdx_cons_ne _ _ (by decide),
        firstCloseIdx_found ms rest hms]
      rfl
    have hd3 : (pre ++ chars "default" :: chars "=" :: chars "[" ::
        (ms ++ chars "]" :: rest)).drop (pre.length + 3) =
        ms ++ chars "]" :: rest := by
      rw [List.drop_append]
      rfl
    have hsub : pre.length + 2 + (ms.length + 1) - (pre.length + 3) =
        ms.length := by
      omega
    unfold parseDefaultOption
    rw [if_neg (not_not.mpr hcur1), if_neg hA, if_pos hcur2, hfc]
    simp only [hd3, hsub, List.take_left]
  · have hcur1 : currentTok (pre ++ chars "default" :: chars "=" ::
        chars "[" :: ms) (pre.length + 1) = chars "=" := by
      rw [currentTok_append]
      rfl
    have hcur2 : currentTok (pre ++ chars "default" :: chars "=" ::
        chars "[" :: ms) (pre.length + 2) = chars "[" := by
      rw [currentTok_append]
      rfl
    have hA : ¬(currentTok (pre ++ chars "default" :: chars "=" ::
        chars "[" :: ms) (pre.length + 2) = [] ∨
        currentTok (pre ++ chars "default" :: chars "=" :: chars "[" :: ms)
          (pre.length + 2) = chars ",") := by
      rw [hcur2]
      decide
    have hfc : findCloseBracket (pre ++ chars "default" :: chars "=" ::
        chars "[" :: ms) (pre.length + 2) = .error .missingClosingBracket := by
      unfold findCloseBracket
      rw [List.drop_append]
      rw [show (chars "default" :: chars "=" :: chars "[" :: ms).drop 2 =
        chars "[" :: ms from rfl]
      rw [firstCloseIdx_cons_ne _ _ (by decide), firstCloseIdx_none ms hms]
      rfl
    unfold parseDefaultOption
    rw [if_neg (not_not.mpr hcur1), if_neg hA, if_pos hcur2, hfc]

/-- Witness for C6 (amended): with lookup and comma before it, the escaped
default `[10,20]` concatenates its three inner tokens to `10,20`, the
unterminated variant fails, and `K,default=[]` parses to the empty
default. -/
theorem C6_escaped_default_witness :
    parseDefaultOption
      [chars "K", chars ",", chars "default", chars "=", chars "[",
        chars "10", chars ",", chars "20", chars "]"] 2 =
      .ok (chars "10,20", 8) ∧
    parseDefaultOption
      [chars "K", chars ",", chars "default", chars "=", chars "[",
        chars "10", chars ",", chars "20"] 2 =
      .error .missingClosingBracket ∧
    ParseMinienvTag (chars "K,default=[]") =
      .ok ⟨chars "K", false, [], []⟩ :=
  C6_escaped_default [chars "K", chars ","]
    [chars "10", chars ",", chars "20"] [] (by decide)

/-- C7: the split option parses exactly when the `=` is followed by one
token that is followed by a comma or end-of-input (the empty token is the
cursor's end-of-input marker); a sub-parser failure fails the whole parse,
and on success the accepted delimiter is stored as the descriptor's
`SplitOn`. -/
theorem C7_split_option (tokens : List Str) (i : Nat) :
    (∀ v i2, parseSplitOption tokens i = .ok (v, i2) ↔
      (currentTok tokens (i + 1) = chars "=" ∧
       (peekTok tokens (i + 2) = [] ∨ peekTok tokens (i + 2) = chars ",") ∧
       currentTok tokens (i + 2) ≠ [] ∧
       v = currentTok tokens (i + 2) ∧ i2 = i + 2)) ∧
    (∀ fuel acc e, i < tokens.length → i ≠ 0 →
      currentTok tokens i = chars "split" →
      parseSplitOption tokens i = .error e →
      parseLoop tokens (fuel + 1) i acc = .error e) ∧
    (∀ fuel acc v i2, i < tokens.length → i ≠ 0 →
      currentTok tokens i = chars "split" →
      parseSplitOption tokens i = .ok (v, i2) →
      parseLoop tokens (fuel + 1) i acc =
        parseLoop tokens fuel (i2 + 1) { acc with SplitOn := v }) := by
  have hso : chars "split" ≠ chars "optional" := by decide
  refine ⟨fun v i2 => ⟨fun hok => ?_, fun hc => ?_⟩,
    fun fuel acc e hlen hi ht herr => ?_,
    fun fuel acc v i2 hlen hi ht hok => ?_⟩
  · unfold parseSplitOption at hok
    split_ifs at hok with hc1 hc2 hc3
    any_goals simp at hok
    obtain ⟨hv, hi2⟩ := hok
    refine ⟨not_not.mp hc1, ?_, hc3, hv.symm, hi2.symm⟩
    rcases not_and_or.mp hc2 with hh | hh
    · exact Or.inl (not_not.mp hh)
    · exact Or.inr (not_not.mp hh)
  · obtain ⟨hc1, hc2, hc3, hv, hi2⟩ := hc
    subst hv
    subst hi2
    have hc2' : ¬(peekTok tokens (i + 2) ≠ [] ∧
        peekTok tokens (i + 2) ≠ chars ",") := by
      rintro ⟨ha, hb⟩
      rcases hc2 with hh | hh
      · exact ha hh
      · exact hb hh
    unfold parseSplitOption
    rw [if_neg (not_not.mpr hc1), if_neg hc2', if_neg hc3]
  · simp [parseLoop, hlen, hi, ht, hso, herr]
  · simp [parseLoop, hlen, hi, ht, hso, hok]

/-- Witness for C7: for the parsed token stream of `K,split=|` the split
sub-parser accepts the delimiter `|` at index 2, and the parse loop stores
it as `SplitOn`. -/
theorem C7_split_option_witness :
    parseSplitOption
      [chars "K", chars ",", chars "split", chars "=", chars "|"] 2 =
      .ok (chars "|", 4) ∧
    parseLoop [chars "K", chars ",", chars "split", chars "=", chars "|"]
      1 2 ⟨chars "K", false, [], []⟩ =
    parseLoop [chars "K", chars ",", chars "split", chars "=", chars "|"]
      0 5 ⟨chars "K", false, [], chars "|"⟩ := by
  constructor
  · exact ((C7_split_option
      [chars "K", chars ",", chars "split", chars "=", chars "|"] 2).1
      (chars "|") 4).mpr (by decide)
  · exact (C7_split_option
      [chars "K", chars ",", chars "split", chars "=", chars "|"] 2).2.2
      0 ⟨chars "K", false, [], []⟩ (chars "|") 4 (by decide) (by decide)
      (by decide) (by decide)

/-- C8 counterexample: with delimiter `,` (parsed from `K,split=,`) and
elements `a,b`, `c`, `d`, the raw value `a,b,c,d` does not coerce to the
three-element list: splitting does not respect element boundaries when an
element contains the delimiter, so the result has four elements. -/
theorem C8_delimiter_in_element_ctex :
    ParseMinienvTag (chars "K,split=,") =
      .ok ⟨chars "K", false, [], chars ","⟩ ∧
    setField (.slice .string) (chars "a,b,c,d")
      ⟨chars "K", false, [], chars ","⟩ =
      .ok (.listVal [.str (chars "a"), .str (chars "b"), .str (chars "c"),
        .str (chars "d")]) ∧
    ¬(setField (.slice .string) (chars "a,b,c,d")
      ⟨chars "K", false, [], chars ","⟩ =
      .ok (.listVal [.str (chars "a,b"), .str (chars "c"),
        .str (chars "d")])) := by
  refine ⟨by decide, by decide, by decide⟩

/-- C8 (amended): for a descriptor whose split delimiter is a single
character occurring in none of the elements `e1`, `e2`, `e3`, coercing the
raw concatenation `e1ce2ce3` to a slice splits it back into exactly those
substrings, converts each independently to the element kind aborting at the
first failure, and preserves their order; for string elements the result is
exactly `[e1, e2, e3]`. -/
theorem C8_split_list_coercion (t : MinienvTag) (s0 : Char) (e1 e2 e3 : Str)
    (k : PrimKind) (hs : t.SplitOn = [s0])
    (h1 : s0 ∉ e1) (h2 : s0 ∉ e2) (h3 : s0 ∉ e3) :
    setField (.slice k) (e1 ++ s0 :: (e2 ++ s0 :: e3)) t =
      (match convertAll k [e1, e2, e3] with
       | .error e => .error e
       | .ok cs => .ok (.listVal cs)) ∧
    setField (.slice .string) (e1 ++ s0 :: (e2 ++ s0 :: e3)) t =
      .ok (.listVal [.str e1, .str e2, .str e3]) := by
  have hsplit := splitGo_single_three s0 e1 e2 e3 h1 h2 h3
  constructor
  · simp only [setField, hs, hsplit]
  · simp only [setField, hs, hsplit]
    simp [convertAll, convertPrimitiveValue]

/-- Witness for C8 (amended): the tag `K,split=|` parses to a descriptor
splitting on `|`, and the raw value `10|20|30` coerces to the string list
`[10, 20, 30]`. -/
theorem C8_split_list_coercion_witness :
    ParseMinienvTag (chars "K,split=|") =
      .ok ⟨chars "K", false, [], chars "|"⟩ ∧
    setField (.slice .string)
      (chars "10" ++ '|' :: (chars "20" ++ '|' :: chars "30"))
      ⟨chars "K", false, [], chars "|"⟩ =
      .ok (.listVal [.str (chars "10"), .str (chars "20"),
        .str (chars "30")]) :=
  ⟨by decide,
    (C8_split_list_coercion ⟨chars "K", false, [], chars "|"⟩ '|'
      (chars "10") (chars "20") (chars "30") .string rfl
      (by decide) (by decide) (by decide)).2⟩

/-- C9: a descriptor whose default parsed to the empty string is
indistinguishable from one with no default (the structure has no presence
marker), so a required field with no value in any source fails with the
required-field error even when the tag string syntactically supplied a
default. -/
theorem C9_empty_default_is_no_default (env : Str → Option Str)
    (config : LoadConfig) (t : MinienvTag) (s : Str)
    (hparse : ParseMinienvTag s = .ok t)
    (hdef : t.Default = []) (hopt : t.Optional = false)
    (henv : env (effectiveLookup config t) = none)
    (hfb : config.Values (effectiveLookup config t) = none) :
    t = ⟨t.LookupName, t.Optional, [], t.SplitOn⟩ ∧
    getValue env config t = .error (.required (effectiveLookup config t)) := by
  constructor
  · cases t
    simp_all
  · simp [getValue, henv, hfb, hopt, hdef]

/-- Witness for C9: the tag string `K,default=[]` syntactically supplies a
default, parses to an empty default, and the field still fails as
required. -/
theorem C9_empty_default_is_no_default_witness :
    (⟨chars "K", false, [], []⟩ : MinienvTag) =
      ⟨chars "K", false, [], []⟩ ∧
    getValue (fun _ => none) emptyConfig ⟨chars "K", false, [], []⟩ =
      .error (.required
        (effectiveLookup emptyConfig ⟨chars "K", false, [], []⟩)) :=
  C9_empty_default_is_no_default (fun _ => none) emptyConfig
    ⟨chars "K", false, [], []⟩ (chars "K,default=[]")
    (by decide) rfl rfl rfl rfl

end Minienv
